import Mathlib

set_option maxHeartbeats 1000000

/-! Verification of the incremental QuickBase-to-BigQuery pipeline:
a shallow embedding of the extraction loop (`app.py`), the staging upsert
(`services/bq_writer.py`), the object naming and checkpoint recovery
(`services/gcs_writer.py`, `utils.py`) and the HTTP retry configuration
(`services/quickbase_client.py`), together with theorems about the
checkpoint, merge and error-handling behaviour. -/

/-- A row of the staging/target BigQuery table.  The source schema
(`schemas/field_mappings.py`) has 17 NULLABLE columns; the MERGE statement in
`BQWriter.load_gcs_file_to_staging_upsert` treats them uniformly except for
the key column `record_id` and the recency column `modified_date`, so the
remaining fifteen columns are collapsed into the single field `rest`.  The
`Option` types reflect that every column is NULLABLE. -/
structure StagedRow where
  record_id : Option Int
  modified_date : Option Int
  rest : String
  deriving DecidableEq

/-- SQL equality as used in the `ON target.record_id = source.record_id`
clause of the MERGE: true only when both sides are non-NULL and equal
(in SQL, `NULL = NULL` is not true). -/
def optEq (a b : Option Int) : Bool :=
  match a, b with
  | some x, some y => decide (x = y)
  | _, _ => false

/-- SQL comparison as used in `source.modified_date > target.modified_date`:
true only when both sides are non-NULL and the first is strictly greater. -/
def optGt (a b : Option Int) : Bool :=
  match a, b with
  | some x, some y => decide (y < x)
  | _, _ => false

/-- Grouping used by `PARTITION BY record_id` in the dedup subquery: BigQuery
partitioning puts all NULL keys into a single group. -/
def sameKey (a b : StagedRow) : Bool :=
  match a.record_id, b.record_id with
  | some x, some y => decide (x = y)
  | none, none => true
  | _, _ => false

/-- Ordering used by `ORDER BY modified_date DESC` inside the dedup window:
`better a b` holds when `b` replaces the current representative `a` (strictly
larger `modified_date`; non-NULL beats NULL because NULLs sort last under
DESC; ties keep the earlier row, a deterministic tie-break). -/
def better (a b : StagedRow) : Bool :=
  match b.modified_date, a.modified_date with
  | some y, some x => decide (x < y)
  | some _, none => true
  | _, _ => false

/-- One step of the per-key deduplication: fold a row into the list of
current per-key representatives. -/
def insertDedup (acc : List StagedRow) (r : StagedRow) : List StagedRow :=
  match acc with
  | [] => [r]
  | a :: rest =>
    if sameKey a r then (if better a r then r else a) :: rest
    else a :: insertDedup rest r

/-- The `SELECT * EXCEPT(rn) FROM (... ROW_NUMBER() OVER (PARTITION BY
record_id ORDER BY modified_date DESC) AS rn ...) WHERE rn = 1` subquery of
the MERGE statement: per key group, keep only the row with the largest
`modified_date`. -/
def dedupLatest (rows : List StagedRow) : List StagedRow :=
  rows.foldl insertDedup []

/-- Look up the (deduplicated) source row matching a target row under the
`ON target.record_id = source.record_id` clause. -/
def srcFind (src : List StagedRow) (t : StagedRow) : Option StagedRow :=
  src.find? (fun s => optEq t.record_id s.record_id)

/-- `WHEN MATCHED AND source.modified_date > target.modified_date THEN UPDATE
SET ...`: the update writes every non-key column from the source row. -/
def applyUpdate (t s : StagedRow) : StagedRow :=
  { t with modified_date := s.modified_date, rest := s.rest }

/-- Effect of the MERGE on one target row. -/
def mergeRow (src : List StagedRow) (t : StagedRow) : StagedRow :=
  match srcFind src t with
  | some s => if optGt s.modified_date t.modified_date then applyUpdate t s else t
  | none => t

/-- Whether the MERGE's `WHEN MATCHED AND ... THEN UPDATE` branch fires for a
target row. -/
def updateFires (src : List StagedRow) (t : StagedRow) : Bool :=
  match srcFind src t with
  | some s => optGt s.modified_date t.modified_date
  | none => false

/-- Whether a source row is matched by some target row under the ON clause. -/
def matchedInTarget (tgt : List StagedRow) (s : StagedRow) : Bool :=
  tgt.any (fun t => optEq t.record_id s.record_id)

/-- The set-based MERGE of `load_gcs_file_to_staging_upsert`: matched target
rows are updated in place when strictly newer data is staged; unmatched
source rows are inserted (`WHEN NOT MATCHED THEN INSERT`).  There is no
DELETE branch. -/
def mergeTables (tgt src : List StagedRow) : List StagedRow :=
  tgt.map (mergeRow src) ++ src.filter (fun s => ! matchedInTarget tgt s)

/-- `num_dml_affected_rows` reported by the MERGE job: rows actually updated
plus rows inserted. -/
def mergeAffected (tgt src : List StagedRow) : Nat :=
  (tgt.filter (updateFires src)).length
    + (src.filter (fun s => ! matchedInTarget tgt s)).length

/-- `if line.strip():` guard of `_read_and_transform_gcs_file`: a line is
skipped when it strips to the empty string, i.e. consists of whitespace
only. -/
def isBlankLine (l : String) : Bool := l.data.all Char.isWhitespace

/-- Per-line outcome of `_read_and_transform_gcs_file`: blank lines are
skipped; `json.loads` errors, transform errors and falsy transformed records
all make the body `continue`, which is collapsed into the abstract decoder
(`json.loads` plus `QuickBaseSchema.transform_quickbase_record`, external
collaborator code) returning `none`. -/
def decodeLine (decode : String → Option StagedRow) (l : String) : Option StagedRow :=
  if isBlankLine l then none else decode l

/-- `BQWriter._read_and_transform_gcs_file`: iterate over the staging
object's lines, keeping the successfully decoded and transformed records and
silently skipping the rest. -/
def read_and_transform_gcs_file (decode : String → Option StagedRow)
    (lines : List String) : List StagedRow :=
  lines.filterMap (decodeLine decode)

/-- `max_bad_records=10` in the temp-table `LoadJobConfig`. -/
def max_bad_records : Nat := 10

/-- Failure-injection environment for one invocation of
`load_gcs_file_to_staging_upsert`: each flag records whether the
corresponding external call (table creation, GCS read, load job, merge job,
temp-table delete) succeeds. -/
structure BQEnv where
  stagingCreateOk : Bool := true
  tempCreateOk : Bool := true
  readOk : Bool := true
  loadOk : Bool := true
  mergeOk : Bool := true
  deleteOk : Bool := true
  deriving DecidableEq

/-- The result dict returned by `load_gcs_file_to_staging_upsert`
(`rows_affected := none` models the key being absent from the dict). -/
structure UpsertResult where
  success : Bool
  rows_loaded : Nat
  rows_affected : Option Nat
  deriving DecidableEq

/-- Observable lifecycle of the disposable (temp) table and of the load and
merge jobs during one upsert invocation. -/
structure UpsertTrace where
  tempCreated : Bool
  tempExpiryHours : Option Nat
  tempExistsAfter : Bool
  loadRan : Bool
  mergeRan : Bool
  deleteFailedLogged : Bool
  deriving DecidableEq

/-- Full outcome of one upsert invocation: returned dict, resulting target
table state, and temp-table/job trace. -/
structure UpsertOutcome where
  result : UpsertResult
  target : List StagedRow
  trace : UpsertTrace
  deriving DecidableEq

/-- Trace of the exception paths taken before the temp table exists: the
`finally` block sees `temp_fqid = None` and deletes nothing. -/
def noTempTrace : UpsertTrace :=
  { tempCreated := false, tempExpiryHours := none, tempExistsAfter := false,
    loadRan := false, mergeRan := false, deleteFailedLogged := false }

/-- The `finally` block of `load_gcs_file_to_staging_upsert`, entered with
the temp table created (`_create_temp_table` set a 24-hour auto-expiry):
best-effort `delete_table`; a delete failure is only logged
(`logger.warning`) and leaves the table to its auto-expiry. -/
def upsertFinally (deleteOk : Bool) (res : UpsertResult) (tgt : List StagedRow)
    (loadRan mergeRan : Bool) : UpsertOutcome :=
  { result := res, target := tgt,
    trace := { tempCreated := true, tempExpiryHours := some 24,
               tempExistsAfter := ! deleteOk, loadRan := loadRan,
               mergeRan := mergeRan, deleteFailedLogged := ! deleteOk } }

/-- `BQWriter.load_gcs_file_to_staging_upsert`: ensure the staging table
exists (never dropped), create a fresh auto-expiring temp table, read and
transform the staging object, return early with success on zero records,
load into the temp table, run the recency MERGE, and always run the
best-effort temp cleanup.  Every exception path is caught and converted to a
`success := false` dict with `rows_loaded := 0`; a merge-job failure reports
`rows_loaded := records.length`.  The merge is a single set-based DML
statement, so a failed merge leaves the target table unchanged. -/
def load_gcs_file_to_staging_upsert (env : BQEnv) (decode : String → Option StagedRow)
    (lines : List String) (target : List StagedRow) : UpsertOutcome :=
  if ! env.stagingCreateOk then
    { result := { success := false, rows_loaded := 0, rows_affected := none },
      target := target, trace := noTempTrace }
  else if ! env.tempCreateOk then
    { result := { success := false, rows_loaded := 0, rows_affected := none },
      target := target, trace := noTempTrace }
  else if ! env.readOk then
    upsertFinally env.deleteOk
      { success := false, rows_loaded := 0, rows_affected := none } target false false
  else
    let records := read_and_transform_gcs_file decode lines
    if records.isEmpty then
      upsertFinally env.deleteOk
        { success := true, rows_loaded := 0, rows_affected := some 0 } target false false
    else if ! env.loadOk then
      upsertFinally env.deleteOk
        { success := false, rows_loaded := 0, rows_affected := none } target true false
    else if ! env.mergeOk then
      upsertFinally env.deleteOk
        { success := false, rows_loaded := records.length, rows_affected := none } target true true
    else
      let src := dedupLatest records
      upsertFinally env.deleteOk
        { success := true, rows_loaded := records.length,
          rows_affected := some (mergeAffected target src) }
        (mergeTables target src) true true

/-- In-memory pipeline state of `create_app`: the `last_run` checkpoint
(epoch milliseconds, `None` before the first successful run) and the durable
target table. -/
structure AppState where
  last_run : Option Int
  target : List StagedRow
  deriving DecidableEq

/-- Failure-injection environment for one `/run` invocation: extraction-loop
and sink-close outcomes, the upsert environment, and the staging object
contents seen by the upsert (its lines and the decoder). -/
structure RunEnv where
  extractOk : Bool := true
  sinkCloseOk : Bool := true
  bq : BQEnv := {}
  decode : String → Option StagedRow
  lines : List String

/-- The `/run` handler of `app.py`: any exception during extraction or sink
close is caught at the run boundary and leaves the state untouched; the
staging upsert is then invoked, and `last_run` is overwritten with the run's
candidate timestamp `current_ms` exactly when the upsert dict reports
success.  The returned Bool is the `ok` field of the JSON response. -/
def appRun (st : AppState) (current_ms : Int) (env : RunEnv) : AppState × Bool :=
  if ! env.extractOk then (st, false)
  else if ! env.sinkCloseOk then (st, false)
  else
    let o := load_gcs_file_to_staging_upsert env.bq env.decode env.lines st.target
    if o.result.success then ({ last_run := some current_ms, target := o.target }, true)
    else ({ st with target := o.target }, false)

/-- The extraction loop of the `/run` handler, driven by the source API
contract (`{limit, offset}` paging): a request at offset `skip` returns
`(source.drop skip).take page_size`; the loop breaks on the first empty page
and otherwise appends the page and advances `skip` by `page_size`.  The
recursion argument `remaining` is `source.drop skip`; the function returns
the list of offsets at which requests were issued, the number of non-empty
pages consumed, and the total number of rows consumed. -/
def extractGo (fuel : Nat) (page_size : Nat) (skip : Nat) (remaining : List α) :
    List Nat × Nat × Nat :=
  match fuel with
  | 0 => ([skip], 0, 0)
  | fuel + 1 =>
    if page_size = 0 ∨ remaining.length = 0 then ([skip], 0, 0)
    else
      let rec_result := extractGo fuel page_size (skip + page_size) (remaining.drop page_size)
      (skip :: rec_result.1, rec_result.2.1 + 1, rec_result.2.2 + min page_size remaining.length)

/-- The full extraction loop of `app.py` starting at `skip = 0` over a source
holding the given records in order.  The fuel `source.length + 1` never runs
out: each iteration with a non-empty page strictly shrinks the remaining
records (see the termination theorem below). -/
def extractLoop (page_size : Nat) (source : List α) : List Nat × Nat × Nat :=
  extractGo (source.length + 1) page_size 0 source

/-- `status_forcelist=(429, 500, 502, 503, 504)` from
`QuickbaseClient.__init__`. -/
def statusForcelist : List Nat := [429, 500, 502, 503, 504]

/-- `Retry(total=5, ...)`: the fixed retry ceiling. -/
def retryTotal : Nat := 5

/-- `backoff_factor=0.6`, expressed in milliseconds to stay in `Nat`. -/
def backoffFactorMs : Nat := 600

/-- Exponential backoff delay before the `k`-th retry (0-based), in
milliseconds: `backoff_factor * 2 ^ k`. -/
def backoffDelayMs (k : Nat) : Nat := backoffFactorMs * 2 ^ k

/-- Whether the mounted `HTTPAdapter`'s `Retry` object retries a response
status: exactly the statuses in the forcelist. -/
def isRetryableStatus (s : Nat) : Bool := statusForcelist.contains s

/-- Outcome of one logical extraction request through the retrying session:
success, an immediately surfaced HTTP error from `raise_for_status`, or the
retry-exhausted error raised by the adapter. -/
inductive FetchOutcome where
  | ok (status : Nat)
  | fatalError (status : Nat)
  | retriesExhausted
  deriving DecidableEq

/-- The session's retry loop: `responses i` is the HTTP status of the `i`-th
attempt.  A status in the forcelist is retried (with its backoff delay)
while retries remain and raises the retry-exhausted error once they are
spent; any other status is returned at once — `raise_for_status` then raises
for error statuses (>= 400) and succeeds otherwise.  Returns the outcome,
the number of attempts issued, and the list of backoff delays slept. -/
def sessionGo (responses : Nat → Nat) (attempt : Nat) :
    Nat → FetchOutcome × Nat × List Nat
  | 0 =>
    let s := responses attempt
    if isRetryableStatus s then (.retriesExhausted, attempt + 1, [])
    else if 400 ≤ s then (.fatalError s, attempt + 1, [])
    else (.ok s, attempt + 1, [])
  | n + 1 =>
    let s := responses attempt
    if isRetryableStatus s then
      let rec_result := sessionGo responses (attempt + 1) n
      (rec_result.1, rec_result.2.1, backoffDelayMs (retryTotal - (n + 1)) :: rec_result.2.2)
    else if 400 ≤ s then (.fatalError s, attempt + 1, [])
    else (.ok s, attempt + 1, [])

/-- One extraction request issued through the session configured in
`QuickbaseClient.__init__` (retry budget `total=5`). -/
def sessionFetch (responses : Nat → Nat) : FetchOutcome × Nat × List Nat :=
  sessionGo responses 0 retryTotal

/-- A UTC wall-clock instant as `datetime.utcnow()` observes it, to
millisecond precision (Python datetimes carry microseconds; milliseconds
suffice here since the checkpoint is epoch milliseconds). -/
structure DateTime where
  year : Nat
  month : Nat
  day : Nat
  hour : Nat
  minute : Nat
  second : Nat
  millis : Nat
  deriving DecidableEq

/-- Field ranges of a real `datetime.utcnow()` value (years restricted to
four digits, as `%Y` zero-pads to four). -/
def validDT (t : DateTime) : Prop :=
  1000 ≤ t.year ∧ t.year ≤ 9999 ∧ 1 ≤ t.month ∧ t.month ≤ 12 ∧
  1 ≤ t.day ∧ t.day ≤ 31 ∧ t.hour ≤ 23 ∧ t.minute ≤ 59 ∧
  t.second ≤ 59 ∧ t.millis ≤ 999

instance (t : DateTime) : Decidable (validDT t) := by
  unfold validDT
  infer_instance

/-- Decimal digit character, as emitted by `strftime`'s zero-padded
conversions. -/
def digitChar : Nat → Char
  | 0 => '0'
  | 1 => '1'
  | 2 => '2'
  | 3 => '3'
  | 4 => '4'
  | 5 => '5'
  | 6 => '6'
  | 7 => '7'
  | 8 => '8'
  | 9 => '9'
  | _ => '*'

/-- `%m` / `%d` / `%H` / `%M` / `%S`: two-digit zero-padded field. -/
def pad2 (n : Nat) : List Char := [digitChar (n / 10), digitChar (n % 10)]

/-- `%Y`: four-digit zero-padded year. -/
def pad4 (n : Nat) : List Char :=
  [digitChar (n / 1000), digitChar (n / 100 % 10), digitChar (n / 10 % 10), digitChar (n % 10)]

/-- `ts.strftime("%Y%m%dT%H%M%SZ")` from `GCSWriter.new_object_name`: the
sub-second part of the timestamp is not represented. -/
def stampChars (t : DateTime) : List Char :=
  pad4 t.year ++ pad2 t.month ++ pad2 t.day ++ ['T'] ++
    pad2 t.hour ++ pad2 t.minute ++ pad2 t.second ++ ['Z']

/-- `GCSWriter.new_object_name` with the configured defaults
(`prefix="quickbase_exports"` after `rstrip("/")`, `basename="qb_records"`,
`compress=True` so the extension is `jsonl.gz`), as the character sequence
of the object name. -/
def new_object_name (t : DateTime) : List Char :=
  ("quickbase_exports/qb_records_").data ++ stampChars t ++ (".jsonl.gz").data

/-- Numeric value of a decimal digit character, `none` for non-digits (the
`\d` character class of the stamp regex). -/
def digitVal? (c : Char) : Option Nat :=
  if 48 ≤ c.toNat ∧ c.toNat ≤ 57 then some (c.toNat - 48) else none

/-- Read a two-digit decimal number (`strptime` field). -/
def read2 (c1 c2 : Char) : Option Nat :=
  match digitVal? c1, digitVal? c2 with
  | some a, some b => some (10 * a + b)
  | _, _ => none

/-- Read a four-digit decimal number (`strptime` `%Y` field). -/
def read4 (c1 c2 c3 c4 : Char) : Option Nat :=
  match digitVal? c1, digitVal? c2, digitVal? c3, digitVal? c4 with
  | some a, some b, some c, some d => some (1000 * a + 100 * b + 10 * c + d)
  | _, _, _, _ => none

/-- Attempt to match `\d{8}T\d{6}Z` at the current position (the characters
right after an underscore) and parse the stamp's six fields with
`strptime("%Y%m%dT%H%M%SZ")`. -/
def matchStamp : List Char → Option (Nat × Nat × Nat × Nat × Nat × Nat)
  | a1 :: a2 :: a3 :: a4 :: b1 :: b2 :: c1 :: c2 :: tc :: h1 :: h2 :: m1 :: m2 :: s1 :: s2 :: zc :: _ =>
    if tc = 'T' ∧ zc = 'Z' then
      match read4 a1 a2 a3 a4, read2 b1 b2, read2 c1 c2,
            read2 h1 h2, read2 m1 m2, read2 s1 s2 with
      | some y, some mo, some d, some hh, some mi, some ss =>
        some (y, mo, d, hh, mi, ss)
      | _, _, _, _, _, _ => none
    else none
  | _ => none

/-- `_STAMP_RX.search`: find the leftmost underscore followed by a
`\d{8}T\d{6}Z` stamp. -/
def findStamp : List Char → Option (Nat × Nat × Nat × Nat × Nat × Nat)
  | [] => none
  | c :: rest =>
    if c = '_' then
      match matchStamp rest with
      | some v => some v
      | none => findStamp rest
    else findStamp rest

/-- `object_name.rsplit("/", 1)[-1]`: keep only the part after the last
slash (the whole string when there is no slash). -/
def afterLastSlash (cs : List Char) : List Char :=
  cs.foldl (fun acc c => if c = '/' then [] else acc ++ [c]) []

/-- Days since 1970-01-01 of a proleptic-Gregorian civil date (the
`days_from_civil` algorithm, matching what
`datetime.replace(tzinfo=utc).timestamp()` computes for the date part).
`Int` division here truncates toward zero exactly as the reference C
algorithm does, and every division below happens on non-negative values. -/
def daysFromCivil (y m d : Int) : Int :=
  let yAdj : Int := if m ≤ 2 then y - 1 else y
  let era : Int := (if 0 ≤ yAdj then yAdj else yAdj - 399) / 400
  let yoe : Int := yAdj - era * 400
  let mp : Int := (m + 9) % 12
  let doy : Int := (153 * mp + 2) / 5 + d - 1
  let doe : Int := yoe * 365 + yoe / 4 - yoe / 100 + doy
  era * 146097 + doe - 719468

/-- Epoch seconds of a UTC civil time, as `datetime.timestamp()` returns for
a tz-aware UTC datetime. -/
def epochSeconds (y mo d h mi s : Nat) : Int :=
  daysFromCivil y mo d * 86400 + (h * 3600 + mi * 60 + s : Nat)

/-- The instant a `DateTime` denotes, in epoch milliseconds: what the run's
start time `t` is "in epoch milliseconds". -/
def toEpochMs (t : DateTime) : Int :=
  epochSeconds t.year t.month t.day t.hour t.minute t.second * 1000 + t.millis

/-- A `DateTime` truncated to whole seconds — the information content of the
object-name stamp. -/
def truncToSecond (t : DateTime) : DateTime :=
  { t with millis := 0 }

/-- `gcs_object_epoch_ms` from `utils.py`: keep the filename after the last
slash, search it for a `_YYYYMMDDTHHMMSSZ` stamp, parse the stamp with
`strptime` as UTC and return epoch milliseconds; `none` models the
`ValueError` raised when no stamp is found. -/
def gcs_object_epoch_ms (object_name : List Char) : Option Int :=
  match findStamp (afterLastSlash object_name) with
  | some (y, mo, d, h, mi, s) => some (epochSeconds y mo d h mi s * 1000)
  | none => none

/-! ### Helper lemmas: deduplication and merge -/

lemma applyUpdate_record_id (t s : StagedRow) : (applyUpdate t s).record_id = t.record_id := rfl

lemma mergeRow_record_id (src : List StagedRow) (t : StagedRow) :
    (mergeRow src t).record_id = t.record_id := by
  unfold mergeRow
  cases h : srcFind src t with
  | none => rfl
  | some s => by_cases hg : optGt s.modified_date t.modified_date <;> simp [hg, applyUpdate]

lemma optGt_irrefl (m : Option Int) : optGt m m = false := by
  cases m <;> simp [optGt]

lemma optEq_some_iff (a : Option Int) (k : Int) : optEq (some k) a = true ↔ a = some k := by
  cases a <;> simp [optEq, eq_comm]

lemma optEq_self_some (k : Int) : optEq (some k) (some k) = true := by simp [optEq]

lemma srcFind_congr (src : List StagedRow) (t1 t2 : StagedRow)
    (h : t1.record_id = t2.record_id) : srcFind src t1 = srcFind src t2 := by
  unfold srcFind
  rw [h]

/-- Two rows lie in different `PARTITION BY record_id` groups. -/
def diffKey (a b : StagedRow) : Prop := sameKey a b = false

lemma sameKey_of_keys (a b : StagedRow) (k : Int) (ha : a.record_id = some k)
    (hb : b.record_id = some k) : sameKey a b = true := by
  simp [sameKey, ha, hb]

lemma sameKey_trans (a b c : StagedRow) (h1 : sameKey a b = true)
    (h2 : sameKey b c = true) : sameKey a c = true := by
  unfold sameKey at h1 h2 ⊢
  cases ha : a.record_id <;> cases hb : b.record_id <;> cases hc : c.record_id <;>
    simp_all

lemma mem_insertDedup (acc : List StagedRow) (r x : StagedRow)
    (h : x ∈ insertDedup acc r) : x ∈ acc ∨ x = r := by
  induction acc with
  | nil =>
    simp [insertDedup] at h
    right
    exact h
  | cons a rest ih =>
    simp only [insertDedup] at h
    by_cases hk : sameKey a r = true
    · simp only [hk, if_true] at h
      by_cases hb : better a r = true <;> simp only [hb, if_true, if_false] at h <;>
        rcases List.mem_cons.mp h with h2 | h2
      · right; exact h2
      · left; exact List.mem_cons_of_mem _ h2
      · left; exact h2 ▸ List.mem_cons_self _ _
      · left; exact List.mem_cons_of_mem _ h2
    · simp only [hk, if_false] at h
      rcases List.mem_cons.mp h with h2 | h2
      · left; exact h2 ▸ List.mem_cons_self _ _
      · rcases ih h2 with h3 | h3
        · left; exact List.mem_cons_of_mem _ h3
        · right; exact h3

lemma insertDedup_pairwise (acc : List StagedRow) (r : StagedRow)
    (h : acc.Pairwise diffKey) : (insertDedup acc r).Pairwise diffKey := by
  induction acc with
  | nil => simp [insertDedup, diffKey]
  | cons a rest ih =>
    rw [List.pairwise_cons] at h
    obtain ⟨ha, hrest⟩ := h
    simp only [insertDedup]
    by_cases hk : sameKey a r = true
    · simp only [hk, if_true]
      by_cases hb : better a r = true <;> simp only [hb, if_true, if_false] <;>
        rw [List.pairwise_cons]
      · refine ⟨?_, hrest⟩
        intro b hbmem
        unfold diffKey
        by_contra hcon
        have h1 : sameKey r b = true := by
          cases h2 : sameKey r b
          · exact absurd h2 hcon
          · rfl
        have h2 : sameKey a b = true := sameKey_trans a r b hk h1
        have h3 : sameKey a b = false := ha b hbmem
        rw [h2] at h3
        cases h3
      · exact ⟨ha, hrest⟩
    · rw [Bool.not_eq_true] at hk
      rw [hk]
      rw [if_neg (by simp)]
      rw [List.pairwise_cons]
      refine ⟨?_, ih hrest⟩
      intro x hx
      rcases mem_insertDedup rest r x hx with hmem | rfl
      · exact ha x hmem
      · exact hk

lemma dedup_go_pairwise (rows : List StagedRow) (acc : List StagedRow)
    (h : acc.Pairwise diffKey) : (rows.foldl insertDedup acc).Pairwise diffKey := by
  induction rows generalizing acc with
  | nil => exact h
  | cons r rest ih => exact ih _ (insertDedup_pairwise _ _ h)

lemma dedupLatest_pairwise (rows : List StagedRow) : (dedupLatest rows).Pairwise diffKey :=
  dedup_go_pairwise rows [] List.Pairwise.nil

lemma mem_dedup_go (rows : List StagedRow) (acc : List StagedRow) (x : StagedRow)
    (h : x ∈ rows.foldl insertDedup acc) : x ∈ acc ∨ x ∈ rows := by
  induction rows generalizing acc with
  | nil => left; exact h
  | cons r rest ih =>
    rcases ih _ h with h2 | h2
    · rcases mem_insertDedup acc r x h2 with h3 | rfl
      · left; exact h3
      · right; exact List.mem_cons_self _ _
    · right; exact List.mem_cons_of_mem _ h2

lemma mem_dedupLatest (rows : List StagedRow) (x : StagedRow)
    (h : x ∈ dedupLatest rows) : x ∈ rows := by
  rcases mem_dedup_go rows [] x h with h2 | h2
  · cases h2
  · exact h2

lemma srcFind_unique (src : List StagedRow) (hpw : src.Pairwise diffKey)
    (s : StagedRow) (hs : s ∈ src) (k : Int) (hk : s.record_id = some k)
    (t : StagedRow) (ht : t.record_id = some k) :
    srcFind src t = some s := by
  induction src with
  | nil => cases hs
  | cons a rest ih =>
    rw [List.pairwise_cons] at hpw
    obtain ⟨ha, hrest⟩ := hpw
    by_cases hEq : optEq t.record_id a.record_id = true
    · unfold srcFind
      simp only [List.find?, hEq]
      have hak : a.record_id = some k := by
        rw [ht] at hEq
        exact (optEq_some_iff _ k).mp hEq
      rcases List.mem_cons.mp hs with rfl | hmem
      · rfl
      · exfalso
        have h1 : sameKey a s = false := ha s hmem
        rw [sameKey_of_keys a s k hak hk] at h1
        cases h1
    · have hmem : s ∈ rest := by
        rcases List.mem_cons.mp hs with rfl | hmem
        · exfalso
          apply hEq
          rw [ht, hk]
          exact optEq_self_some k
        · exact hmem
      have hrec := ih hrest hmem
      rw [Bool.not_eq_true] at hEq
      unfold srcFind at hrec ⊢
      simp only [List.find?, hEq]
      exact hrec

lemma list_map_self (l : List StagedRow) (f : StagedRow → StagedRow)
    (h : ∀ x ∈ l, f x = x) : l.map f = l := by
  induction l with
  | nil => rfl
  | cons a rest ih =>
    simp only [List.map_cons]
    rw [h a (List.mem_cons_self _ _), ih (fun x hx => h x (List.mem_cons_of_mem _ hx))]

lemma mergeRow_merged_fixed (src : List StagedRow) (t : StagedRow) :
    mergeRow src (mergeRow src t) = mergeRow src t := by
  have hfind : srcFind src (mergeRow src t) = srcFind src t :=
    srcFind_congr src _ _ (mergeRow_record_id src t)
  cases h : srcFind src t with
  | none =>
    have h0 : mergeRow src t = t := by unfold mergeRow; rw [h]
    rw [h0] at hfind ⊢
    unfold mergeRow
    rw [h]
  | some s =>
    by_cases hg : optGt s.modified_date t.modified_date = true
    · have h0 : mergeRow src t = applyUpdate t s := by
        unfold mergeRow
        rw [h]
        simp [hg]
      rw [h0] at hfind ⊢
      unfold mergeRow
      rw [hfind, h]
      have h1 : optGt s.modified_date (applyUpdate t s).modified_date = false := by
        simp [applyUpdate, optGt_irrefl]
      simp [h1]
    · rw [Bool.not_eq_true] at hg
      have h0 : mergeRow src t = t := by
        unfold mergeRow
        rw [h]
        simp [hg]
      rw [h0] at hfind ⊢
      unfold mergeRow
      rw [hfind, h]
      simp [hg]

lemma mergeRow_self_fixed (src : List StagedRow) (hpw : src.Pairwise diffKey)
    (s : StagedRow) (hs : s ∈ src) (k : Int) (hk : s.record_id = some k) :
    mergeRow src s = s := by
  have hfind : srcFind src s = some s := srcFind_unique src hpw s hs k hk s hk
  unfold mergeRow
  rw [hfind]
  simp [optGt_irrefl]

lemma matchedInTarget_merge (tgt src : List StagedRow) (s : StagedRow) (hs : s ∈ src)
    (k : Int) (hk : s.record_id = some k) :
    matchedInTarget (mergeTables tgt src) s = true := by
  by_cases hm : matchedInTarget tgt s = true
  · unfold matchedInTarget at hm ⊢
    rw [List.any_eq_true] at hm ⊢
    obtain ⟨t, htmem, hte⟩ := hm
    refine ⟨mergeRow src t, ?_, ?_⟩
    · exact List.mem_append_left _ (List.mem_map_of_mem _ htmem)
    · rw [mergeRow_record_id]
      exact hte
  · unfold matchedInTarget
    rw [List.any_eq_true]
    rw [Bool.not_eq_true] at hm
    refine ⟨s, ?_, ?_⟩
    · refine List.mem_append_right _ ?_
      rw [List.mem_filter]
      exact ⟨hs, by simp [hm]⟩
    · rw [hk]
      exact optEq_self_some k

/-- Idempotence of the MERGE at the table level, for staged rows whose
`record_id` is non-NULL. -/
lemma mergeTables_idem (tgt : List StagedRow) (records : List StagedRow)
    (hk : ∀ r ∈ records, r.record_id.isSome = true) :
    mergeTables (mergeTables tgt (dedupLatest records)) (dedupLatest records)
      = mergeTables tgt (dedupLatest records) := by
  have hpw : (dedupLatest records).Pairwise diffKey := dedupLatest_pairwise records
  have hks : ∀ s ∈ dedupLatest records, s.record_id.isSome = true := fun s hs =>
    hk s (mem_dedupLatest records s hs)
  have hfix : ∀ x ∈ mergeTables tgt (dedupLatest records),
      mergeRow (dedupLatest records) x = x := by
    intro x hx
    rcases List.mem_append.mp hx with hx2 | hx2
    · obtain ⟨t, htmem, rfl⟩ := List.mem_map.mp hx2
      exact mergeRow_merged_fixed _ t
    · have hxs : x ∈ dedupLatest records := (List.mem_filter.mp hx2).1
      obtain ⟨k, hk2⟩ := Option.isSome_iff_exists.mp (hks x hxs)
      exact mergeRow_self_fixed _ hpw x hxs k hk2
  have hmat : ∀ s ∈ dedupLatest records,
      matchedInTarget (mergeTables tgt (dedupLatest records)) s = true := by
    intro s hs
    obtain ⟨k, hk2⟩ := Option.isSome_iff_exists.mp (hks s hs)
    exact matchedInTarget_merge tgt _ s hs k hk2
  generalize hM : mergeTables tgt (dedupLatest records) = M at hfix hmat ⊢
  unfold mergeTables
  rw [list_map_self M _ hfix]
  have hfilter : (dedupLatest records).filter (fun s => ! matchedInTarget M s) = [] := by
    rw [List.filter_eq_nil_iff]
    intro s hs
    simp [hmat s hs]
  rw [hfilter, List.append_nil]

/-! ### Control-flow characterization of the upsert -/

lemma upsert_success_iff (env : BQEnv) (decode : String → Option StagedRow)
    (lines : List String) (tgt : List StagedRow) :
    (load_gcs_file_to_staging_upsert env decode lines tgt).result.success = true ↔
      (env.stagingCreateOk = true ∧ env.tempCreateOk = true ∧ env.readOk = true ∧
        (read_and_transform_gcs_file decode lines = [] ∨
          (env.loadOk = true ∧ env.mergeOk = true))) := by
  rcases env with ⟨s1, s2, s3, s4, s5, s6⟩
  by_cases hrec : read_and_transform_gcs_file decode lines = [] <;>
    cases s1 <;> cases s2 <;> cases s3 <;> cases s4 <;> cases s5 <;>
      simp [load_gcs_file_to_staging_upsert, upsertFinally, noTempTrace,
        List.isEmpty_iff, hrec]

lemma upsert_target_eq (env : BQEnv) (decode : String → Option StagedRow)
    (lines : List String) (tgt : List StagedRow) :
    (load_gcs_file_to_staging_upsert env decode lines tgt).target =
      (if env.stagingCreateOk = true ∧ env.tempCreateOk = true ∧ env.readOk = true ∧
          env.loadOk = true ∧ env.mergeOk = true ∧
          read_and_transform_gcs_file decode lines ≠ []
        then mergeTables tgt (dedupLatest (read_and_transform_gcs_file decode lines))
        else tgt) := by
  rcases env with ⟨s1, s2, s3, s4, s5, s6⟩
  by_cases hrec : read_and_transform_gcs_file decode lines = [] <;>
    cases s1 <;> cases s2 <;> cases s3 <;> cases s4 <;> cases s5 <;>
      simp [load_gcs_file_to_staging_upsert, upsertFinally, noTempTrace,
        List.isEmpty_iff, hrec]

/-! ### Claim theorems -/

/-- C2: for every merge of a deduplicated staged row set into the target
table, a target row with the same `record_id` as a staged row is updated
(with the staged row's non-key columns) exactly when the staged row's
`modified_at` is strictly greater than the target's, and a staged row whose
`record_id` matches no target row is inserted; a strictly older staged row
leaves its target row unchanged, fires no update and is not an insert, so it
contributes 0 to `rows_affected`. -/
theorem merge_recency_resolution (records tgt : List StagedRow) (s t : StagedRow)
    (k sm tm : Int) (i : Nat)
    (hs : s ∈ dedupLatest records) (hk : s.record_id = some k)
    (hm : s.modified_date = some sm) :
    (tgt[i]? = some t → t.record_id = some k → t.modified_date = some tm →
      ((mergeTables tgt (dedupLatest records))[i]? =
          some (if tm < sm then applyUpdate t s else t)
        ∧ updateFires (dedupLatest records) t = decide (tm < sm)
        ∧ matchedInTarget tgt s = true))
    ∧ ((∀ u ∈ tgt, u.record_id ≠ some k) →
        s ∈ mergeTables tgt (dedupLatest records) ∧ matchedInTarget tgt s = false) := by
  have hpw := dedupLatest_pairwise records
  constructor
  · intro hti htk htm
    have hfind : srcFind (dedupLatest records) t = some s :=
      srcFind_unique _ hpw s hs k hk t htk
    have hi : i < tgt.length := by
      by_contra hcon
      rw [List.getElem?_eq_none (Nat.le_of_not_lt hcon)] at hti
      cases hti
    refine ⟨?_, ?_, ?_⟩
    · unfold mergeTables
      rw [List.getElem?_append, if_pos (by simpa using hi)]
      rw [List.getElem?_map, hti]
      simp only [Option.map_some']
      have hrow : mergeRow (dedupLatest records) t =
          (if optGt s.modified_date t.modified_date = true then applyUpdate t s else t) := by
        unfold mergeRow
        rw [hfind]
      rw [hrow, hm, htm]
      by_cases hlt : tm < sm
      · rw [if_pos (by simp [optGt, hlt]), if_pos hlt]
      · rw [if_neg (by simp [optGt, hlt]), if_neg hlt]
    · have hfire : updateFires (dedupLatest records) t =
          optGt s.modified_date t.modified_date := by
        unfold updateFires
        rw [hfind]
      rw [hfire, hm, htm]
      simp [optGt]
    · unfold matchedInTarget
      rw [List.any_eq_true]
      have htmem : t ∈ tgt := by
        obtain ⟨h1, h2⟩ := List.getElem?_eq_some.mp hti
        exact h2 ▸ List.getElem_mem h1
      refine ⟨t, htmem, ?_⟩
      rw [htk, hk]
      exact optEq_self_some k
  · intro hnone
    have hmatch : matchedInTarget tgt s = false := by
      unfold matchedInTarget
      rw [List.any_eq_false]
      intro u hu
      rw [hk]
      cases hu2 : u.record_id with
      | none => simp [optEq]
      | some j =>
        have hne := hnone u hu
        rw [hu2] at hne
        simp only [optEq, decide_eq_true_eq]
        intro hj
        exact hne (by rw [hj])
    constructor
    · refine List.mem_append_right _ ?_
      rw [List.mem_filter]
      exact ⟨hs, by simp [hmatch]⟩
    · exact hmatch

/-- Witness for the recency theorem: the spec's scenario — target row
`(id 1, modified 100)`, staged row `(id 1, modified 90)` — gives an
unchanged target row, no firing update, and `rows_affected = 0`. -/
theorem merge_recency_resolution_witness :
    ((⟨some 1, some 90, "s"⟩ : StagedRow) ∈ dedupLatest [⟨some 1, some 90, "s"⟩]
      ∧ ([(⟨some 1, some 100, "t"⟩ : StagedRow)])[0]? = some ⟨some 1, some 100, "t"⟩)
    ∧ ((mergeTables [⟨some 1, some 100, "t"⟩] (dedupLatest [⟨some 1, some 90, "s"⟩]))[0]? =
          some (if (100 : Int) < 90 then applyUpdate ⟨some 1, some 100, "t"⟩ ⟨some 1, some 90, "s"⟩
            else ⟨some 1, some 100, "t"⟩)
        ∧ updateFires (dedupLatest [⟨some 1, some 90, "s"⟩]) ⟨some 1, some 100, "t"⟩ =
            decide ((100 : Int) < 90)
        ∧ matchedInTarget [⟨some 1, some 100, "t"⟩] ⟨some 1, some 90, "s"⟩ = true)
    ∧ mergeAffected [⟨some 1, some 100, "t"⟩] (dedupLatest [⟨some 1, some 90, "s"⟩]) = 0
    ∧ mergeTables [⟨some 1, some 100, "t"⟩] (dedupLatest [⟨some 1, some 90, "s"⟩])
        = [⟨some 1, some 100, "t"⟩] :=
  ⟨⟨by decide, by decide⟩,
    (merge_recency_resolution [⟨some 1, some 90, "s"⟩] [⟨some 1, some 100, "t"⟩]
      ⟨some 1, some 90, "s"⟩ ⟨some 1, some 100, "t"⟩ 1 90 100 0
      (by decide) rfl rfl).1 (by decide) rfl rfl,
    by decide, by decide⟩

/-- C3 counterexample: the merge is not idempotent for every staging object.
A staged row whose `record_id` is NULL is never matched by the
`ON target.record_id = source.record_id` clause (SQL `NULL = NULL` is not
true), so applying the same staging object's stage-and-merge twice inserts
the row twice: starting from an empty target, one application yields one
row, two applications yield two. -/
theorem merge_not_idempotent_null_key :
    (load_gcs_file_to_staging_upsert {} (fun _ => some ⟨none, some 5, "x"⟩) ["a"]
        (load_gcs_file_to_staging_upsert {} (fun _ => some ⟨none, some 5, "x"⟩) ["a"] []).target).target
      ≠ (load_gcs_file_to_staging_upsert {} (fun _ => some ⟨none, some 5, "x"⟩) ["a"] []).target := by
  decide

/-- C3 (amended): the stage-and-merge operation is idempotent for every
staging object all of whose transformed records carry a non-NULL
`record_id` (the spec's data-model invariant): applying it twice in
succession, under the same external outcomes, yields the same target-table
state as applying it once. -/
theorem merge_idempotent_nonnull_keys (env : BQEnv) (decode : String → Option StagedRow)
    (lines : List String) (tgt : List StagedRow)
    (hkeys : ∀ r ∈ read_and_transform_gcs_file decode lines, r.record_id.isSome = true) :
    (load_gcs_file_to_staging_upsert env decode lines
        (load_gcs_file_to_staging_upsert env decode lines tgt).target).target
      = (load_gcs_file_to_staging_upsert env decode lines tgt).target := by
  rw [upsert_target_eq env decode lines tgt,
    upsert_target_eq env decode lines
      (if env.stagingCreateOk = true ∧ env.tempCreateOk = true ∧ env.readOk = true ∧
          env.loadOk = true ∧ env.mergeOk = true ∧
          read_and_transform_gcs_file decode lines ≠ []
        then mergeTables tgt (dedupLatest (read_and_transform_gcs_file decode lines))
        else tgt)]
  by_cases h : env.stagingCreateOk = true ∧ env.tempCreateOk = true ∧ env.readOk = true ∧
      env.loadOk = true ∧ env.mergeOk = true ∧
      read_and_transform_gcs_file decode lines ≠ []
  · simp only [if_pos h]
    exact mergeTables_idem tgt _ hkeys
  · simp only [if_neg h]

/-- Witness for the amended idempotence theorem at a concrete staging object
with non-NULL keys. -/
theorem merge_idempotent_nonnull_keys_witness :
    (∀ r ∈ read_and_transform_gcs_file (fun _ => some ⟨some 7, some 5, "x"⟩) ["a"],
        r.record_id.isSome = true)
    ∧ (load_gcs_file_to_staging_upsert {} (fun _ => some ⟨some 7, some 5, "x"⟩) ["a"]
          (load_gcs_file_to_staging_upsert {} (fun _ => some ⟨some 7, some 5, "x"⟩) ["a"]
            [⟨some 7, some 3, "old"⟩]).target).target
        = (load_gcs_file_to_staging_upsert {} (fun _ => some ⟨some 7, some 5, "x"⟩) ["a"]
            [⟨some 7, some 3, "old"⟩]).target :=
  ⟨by decide,
    merge_idempotent_nonnull_keys {} (fun _ => some ⟨some 7, some 5, "x"⟩) ["a"]
      [⟨some 7, some 3, "old"⟩] (by decide)⟩

/-- C9: the merge never removes rows from the target table — every
`record_id` present before a stage-and-merge invocation (under any external
outcomes) is still present afterwards. -/
theorem merge_preserves_existing_record_ids (env : BQEnv)
    (decode : String → Option StagedRow) (lines : List String)
    (tgt : List StagedRow) (t : StagedRow) (ht : t ∈ tgt) :
    ∃ r, r ∈ (load_gcs_file_to_staging_upsert env decode lines tgt).target ∧
      r.record_id = t.record_id := by
  rw [upsert_target_eq]
  split_ifs with h
  · exact ⟨mergeRow _ t, List.mem_append_left _ (List.mem_map_of_mem _ ht),
      mergeRow_record_id _ t⟩
  · exact ⟨t, ht, rfl⟩

/-- Witness for row preservation: a concrete target row whose staged
replacement is newer still leaves a row with `record_id = some 1` present. -/
theorem merge_preserves_existing_record_ids_witness :
    (⟨some 1, some 100, "t"⟩ : StagedRow) ∈ [(⟨some 1, some 100, "t"⟩ : StagedRow)]
    ∧ ∃ r, r ∈ (load_gcs_file_to_staging_upsert {} (fun _ => some ⟨some 1, some 200, "new"⟩)
        ["a"] [⟨some 1, some 100, "t"⟩]).target ∧ r.record_id = some 1 :=
  ⟨by decide,
    merge_preserves_existing_record_ids {} (fun _ => some ⟨some 1, some 200, "new"⟩)
      ["a"] [⟨some 1, some 100, "t"⟩] ⟨some 1, some 100, "t"⟩ (by decide)⟩

/-- C10: when the staging object yields zero transformed records (and the
steps before the empty-check succeed), the upsert returns success with
`rows_loaded = 0` and `rows_affected = 0`, leaves the target table
unchanged, and executes neither the load job nor the merge statement. -/
theorem empty_staging_noop_success (env : BQEnv) (decode : String → Option StagedRow)
    (lines : List String) (tgt : List StagedRow)
    (h1 : env.stagingCreateOk = true) (h2 : env.tempCreateOk = true)
    (h3 : env.readOk = true)
    (hrec : read_and_transform_gcs_file decode lines = []) :
    (load_gcs_file_to_staging_upsert env decode lines tgt).result.success = true
    ∧ (load_gcs_file_to_staging_upsert env decode lines tgt).result.rows_loaded = 0
    ∧ (load_gcs_file_to_staging_upsert env decode lines tgt).result.rows_affected = some 0
    ∧ (load_gcs_file_to_staging_upsert env decode lines tgt).target = tgt
    ∧ (load_gcs_file_to_staging_upsert env decode lines tgt).trace.loadRan = false
    ∧ (load_gcs_file_to_staging_upsert env decode lines tgt).trace.mergeRan = false := by
  simp [load_gcs_file_to_staging_upsert, h1, h2, h3, hrec, upsertFinally]

/-- Witness for the zero-record theorem: a decoder rejecting every line. -/
theorem empty_staging_noop_success_witness :
    (read_and_transform_gcs_file (fun _ => none) ["x"] = [])
    ∧ ((load_gcs_file_to_staging_upsert {} (fun _ => none) ["x"]
          [⟨some 1, some 2, "a"⟩]).result.success = true
      ∧ (load_gcs_file_to_staging_upsert {} (fun _ => none) ["x"]
          [⟨some 1, some 2, "a"⟩]).result.rows_loaded = 0
      ∧ (load_gcs_file_to_staging_upsert {} (fun _ => none) ["x"]
          [⟨some 1, some 2, "a"⟩]).result.rows_affected = some 0
      ∧ (load_gcs_file_to_staging_upsert {} (fun _ => none) ["x"]
          [⟨some 1, some 2, "a"⟩]).target = [⟨some 1, some 2, "a"⟩]
      ∧ (load_gcs_file_to_staging_upsert {} (fun _ => none) ["x"]
          [⟨some 1, some 2, "a"⟩]).trace.loadRan = false
      ∧ (load_gcs_file_to_staging_upsert {} (fun _ => none) ["x"]
          [⟨some 1, some 2, "a"⟩]).trace.mergeRan = false) :=
  ⟨by decide,
    empty_staging_noop_success {} (fun _ => none) ["x"] [⟨some 1, some 2, "a"⟩]
      rfl rfl rfl (by decide)⟩

/-- C6: for every upsert invocation, regardless of the load/merge outcome,
the cleanup phase runs: if the disposable (temp) table was created (i.e. the
steps up to and including `_create_temp_table` succeeded) it carries a
24-hour auto-expiry; a successful explicit delete removes it; a failed
delete is only logged, leaves the auto-expiry in place, and never changes
the returned result or the target table. -/
theorem temp_table_cleanup_guarantee (env : BQEnv) (decode : String → Option StagedRow)
    (lines : List String) (tgt : List StagedRow) :
    ((load_gcs_file_to_staging_upsert env decode lines tgt).trace.tempCreated
        = (env.stagingCreateOk && env.tempCreateOk))
    ∧ ((load_gcs_file_to_staging_upsert env decode lines tgt).trace.tempCreated = true →
        (load_gcs_file_to_staging_upsert env decode lines tgt).trace.tempExpiryHours = some 24)
    ∧ ((load_gcs_file_to_staging_upsert env decode lines tgt).trace.tempCreated = true →
        env.deleteOk = true →
        (load_gcs_file_to_staging_upsert env decode lines tgt).trace.tempExistsAfter = false)
    ∧ ((load_gcs_file_to_staging_upsert env decode lines tgt).trace.tempCreated = true →
        env.deleteOk = false →
        ((load_gcs_file_to_staging_upsert env decode lines tgt).trace.tempExistsAfter = true
          ∧ (load_gcs_file_to_staging_upsert env decode lines tgt).trace.tempExpiryHours = some 24
          ∧ (load_gcs_file_to_staging_upsert env decode lines tgt).trace.deleteFailedLogged = true))
    ∧ ((load_gcs_file_to_staging_upsert { env with deleteOk := true } decode lines tgt).result
        = (load_gcs_file_to_staging_upsert { env with deleteOk := false } decode lines tgt).result)
    ∧ ((load_gcs_file_to_staging_upsert { env with deleteOk := true } decode lines tgt).target
        = (load_gcs_file_to_staging_upsert { env with deleteOk := false } decode lines tgt).target) := by
  rcases env with ⟨s1, s2, s3, s4, s5, s6⟩
  by_cases hrec : read_and_transform_gcs_file decode lines = [] <;>
    cases s1 <;> cases s2 <;> cases s3 <;> cases s4 <;> cases s5 <;> cases s6 <;>
      simp [load_gcs_file_to_staging_upsert, upsertFinally, noTempTrace,
        List.isEmpty_iff, hrec]

/-- Witness for the cleanup theorem, at an environment whose merge and
delete both fail: the run result is the same as with a succeeding delete,
and the expiring temp table is left behind. -/
theorem temp_table_cleanup_guarantee_witness :
    ((load_gcs_file_to_staging_upsert { mergeOk := false, deleteOk := false }
        (fun _ => some ⟨some 1, some 2, "r"⟩) ["a"] []).trace.tempCreated = (true && true))
    ∧ ((load_gcs_file_to_staging_upsert { mergeOk := false, deleteOk := false }
        (fun _ => some ⟨some 1, some 2, "r"⟩) ["a"] []).trace.tempCreated = true →
        (load_gcs_file_to_staging_upsert { mergeOk := false, deleteOk := false }
          (fun _ => some ⟨some 1, some 2, "r"⟩) ["a"] []).trace.tempExpiryHours = some 24) := by
  have h := temp_table_cleanup_guarantee { mergeOk := false, deleteOk := false }
    (fun _ => some ⟨some 1, some 2, "r"⟩) ["a"] []
  exact ⟨h.1, h.2.1⟩

/-- C1: checkpoint discipline of the `/run` handler.  A run whose response
is not ok leaves `last_run` exactly as it was; a run reports ok exactly when
extraction and sink close succeeded and the staging upsert dict reports
success, and only then is `last_run` overwritten — with the run's candidate
timestamp `current_ms`.  Any failure injected at extraction, sink-close,
table-creation, read, load or merge stage therefore leaves the checkpoint
untouched, and when candidate timestamps do not decrease across runs the
committed checkpoint is non-decreasing. -/
theorem checkpoint_commit_discipline (st : AppState) (current_ms : Int) (env : RunEnv) :
    ((appRun st current_ms env).2 = false →
      (appRun st current_ms env).1.last_run = st.last_run)
    ∧ ((appRun st current_ms env).2 = true →
      (appRun st current_ms env).1.last_run = some current_ms)
    ∧ ((appRun st current_ms env).2 = true ↔
      (env.extractOk = true ∧ env.sinkCloseOk = true ∧
        (load_gcs_file_to_staging_upsert env.bq env.decode env.lines st.target).result.success
          = true))
    ∧ (env.extractOk = false ∨ env.sinkCloseOk = false ∨
        env.bq.stagingCreateOk = false ∨ env.bq.tempCreateOk = false ∨
        env.bq.readOk = false ∨
        (read_and_transform_gcs_file env.decode env.lines ≠ [] ∧
          (env.bq.loadOk = false ∨ env.bq.mergeOk = false)) →
        (appRun st current_ms env).2 = false)
    ∧ (∀ v, st.last_run = some v → v ≤ current_ms →
        ∀ w, (appRun st current_ms env).1.last_run = some w → v ≤ w) := by
  obtain ⟨e1, e2, bq, dec, lines⟩ := env
  have F1 : (appRun st current_ms ⟨e1, e2, bq, dec, lines⟩).2 = true ↔
      (e1 = true ∧ e2 = true ∧
        (load_gcs_file_to_staging_upsert bq dec lines st.target).result.success = true) := by
    cases e1 <;> cases e2 <;>
      by_cases hsucc :
        (load_gcs_file_to_staging_upsert bq dec lines st.target).result.success = true <;>
      simp_all [appRun]
  have F2 : (appRun st current_ms ⟨e1, e2, bq, dec, lines⟩).2 = false →
      (appRun st current_ms ⟨e1, e2, bq, dec, lines⟩).1.last_run = st.last_run := by
    cases e1 <;> cases e2 <;>
      by_cases hsucc :
        (load_gcs_file_to_staging_upsert bq dec lines st.target).result.success = true <;>
      simp_all [appRun]
  have F3 : (appRun st current_ms ⟨e1, e2, bq, dec, lines⟩).2 = true →
      (appRun st current_ms ⟨e1, e2, bq, dec, lines⟩).1.last_run = some current_ms := by
    cases e1 <;> cases e2 <;>
      by_cases hsucc :
        (load_gcs_file_to_staging_upsert bq dec lines st.target).result.success = true <;>
      simp_all [appRun]
  refine ⟨F2, F3, F1, ?_, ?_⟩
  · intro hfail
    cases hok : (appRun st current_ms ⟨e1, e2, bq, dec, lines⟩).2
    · rfl
    · exfalso
      obtain ⟨he1, he2, hsucc⟩ := F1.mp hok
      obtain ⟨h1, h2, h3, h4⟩ := (upsert_success_iff bq dec lines st.target).mp hsucc
      rcases hfail with h | h | h | h | h | ⟨hne, h⟩
      · rw [he1] at h; cases h
      · rw [he2] at h; cases h
      · rw [h1] at h; cases h
      · rw [h2] at h; cases h
      · rw [h3] at h; cases h
      · rcases h4 with h4 | ⟨h5, h6⟩
        · exact hne h4
        · rcases h with h | h
          · rw [h5] at h; cases h
          · rw [h6] at h; cases h
  · intro v hv hle w hw
    cases hok : (appRun st current_ms ⟨e1, e2, bq, dec, lines⟩).2
    · rw [F2 hok, hv] at hw
      injection hw with h
      omega
    · rw [F3 hok] at hw
      injection hw with h
      omega

/-- Witness for the checkpoint theorem: with a failing merge job injected,
the run reports not-ok and the checkpoint keeps its previous value. -/
theorem checkpoint_commit_discipline_witness :
    (appRun ⟨some 5, []⟩ 7
        ⟨true, true, { mergeOk := false }, (fun _ => some ⟨some 1, some 2, "r"⟩), ["a"]⟩).2 = false
    ∧ (appRun ⟨some 5, []⟩ 7
        ⟨true, true, { mergeOk := false }, (fun _ => some ⟨some 1, some 2, "r"⟩), ["a"]⟩).1.last_run
      = some 5 := by
  have h := checkpoint_commit_discipline ⟨some 5, []⟩ 7
    ⟨true, true, { mergeOk := false }, (fun _ => some ⟨some 1, some 2, "r"⟩), ["a"]⟩
  have hok := h.2.2.2.1
    (Or.inr (Or.inr (Or.inr (Or.inr (Or.inr ⟨by decide, Or.inr rfl⟩)))))
  exact ⟨hok, h.1 hok⟩

/-- C8 counterexample: a per-line decode (or transform) failure is not
surfaced as the run's failure.  With a staging object holding one
undecodable line and one good line, `_read_and_transform_gcs_file` logs and
skips the bad line (`continue`) and the run continues and reports success
with `rows_loaded = 1`. -/
theorem decode_failure_skipped_run_succeeds :
    ((fun l => if l = "g" then some (⟨some 1, some 5, "d"⟩ : StagedRow) else none) "bad" = none
      ∧ isBlankLine "bad" = false)
    ∧ (load_gcs_file_to_staging_upsert {}
        (fun l => if l = "g" then some ⟨some 1, some 5, "d"⟩ else none)
        ["bad", "g"] []).result.success = true
    ∧ (load_gcs_file_to_staging_upsert {}
        (fun l => if l = "g" then some ⟨some 1, some 5, "d"⟩ else none)
        ["bad", "g"] []).result.rows_loaded = 1 := by
  decide

lemma filterMap_filter_isSome (f : String → Option StagedRow) (lines : List String) :
    (lines.filter (fun l => (f l).isSome)).filterMap f = lines.filterMap f := by
  induction lines with
  | nil => rfl
  | cons l rest ih =>
    by_cases h : (f l).isSome = true
    · rw [List.filter_cons_of_pos (by simpa using h)]
      cases h2 : f l with
      | none => rw [h2] at h; cases h
      | some r => rw [List.filterMap_cons_some h2, List.filterMap_cons_some h2, ih]
    · rw [List.filter_cons_of_neg (by simpa using h)]
      cases h2 : f l with
      | none => rw [List.filterMap_cons_none h2, ih]
      | some r => rw [h2] at h; exact absurd rfl h

lemma read_and_transform_drop_bad (decode : String → Option StagedRow)
    (lines : List String) :
    read_and_transform_gcs_file decode
        (lines.filter (fun l => (decodeLine decode l).isSome))
      = read_and_transform_gcs_file decode lines := by
  unfold read_and_transform_gcs_file
  exact filterMap_filter_isSome (decodeLine decode) lines

/-- C8 (amended): below the run boundary no error is surfaced as the run's
failure beyond the structured failure result, with two exceptions — the
best-effort disposable-table cleanup (see the cleanup theorem) and, contrary
to the original claim, per-line decode/transform failures of the staging
object: such lines are logged and skipped while the run continues, so the
whole upsert behaves exactly as if the undecodable (or blank) lines were
absent from the staging object. -/
theorem decode_failures_equivalent_to_removal (env : BQEnv)
    (decode : String → Option StagedRow) (lines : List String)
    (tgt : List StagedRow) :
    load_gcs_file_to_staging_upsert env decode
        (lines.filter (fun l => (decodeLine decode l).isSome)) tgt
      = load_gcs_file_to_staging_upsert env decode lines tgt := by
  unfold load_gcs_file_to_staging_upsert
  rw [read_and_transform_drop_bad]

/-! ### Extraction loop analysis -/

lemma range_offsets (a p n : Nat) :
    a :: (List.range (n + 1)).map (fun i => (a + p) + i * p)
      = (List.range (n + 1 + 1)).map (fun i => a + i * p) := by
  conv_rhs => rw [List.range_succ_eq_map]
  rw [List.map_cons, List.map_map]
  congr 1
  · simp
  · apply List.map_congr_left
    intro i _
    simp [Function.comp, Nat.succ_mul]
    ring

lemma extractGo_spec (fuel : Nat) (p : Nat) (skip : Nat) (source : List α)
    (hp : 0 < p) (hfuel : source.length < fuel) :
    extractGo fuel p skip source =
      ((List.range ((source.length + p - 1) / p + 1)).map (fun i => skip + i * p),
        (source.length + p - 1) / p, source.length) := by
  induction fuel generalizing skip source with
  | zero => omega
  | succ fuel ih =>
    by_cases hnil : source.length = 0
    · rw [extractGo, if_pos (Or.inr hnil), hnil]
      have h1 : (0 + p - 1) / p = 0 := Nat.div_eq_of_lt (by omega)
      have h2 : List.range 1 = [0] := rfl
      rw [h1, h2, List.map_cons, List.map_nil]
      simp
    · rw [extractGo, if_neg (by omega)]
      have hdrop : (source.drop p).length = source.length - p := by
        simp [List.length_drop]
      rw [ih (skip + p) (source.drop p) (by omega)]
      simp only [hdrop]
      set L := source.length with hL
      have hL1 : 1 ≤ L := by omega
      have hpages : (L - p + p - 1) / p + 1 = (L + p - 1) / p := by
        have e1 : L + p - 1 = (L - 1) + p := by omega
        have e2 : (L + p - 1) / p = (L - 1) / p + 1 := by
          rw [e1, Nat.add_div_right _ hp]
        by_cases hLp : p ≤ L
        · have e3 : L - p + p - 1 = L - 1 := by omega
          rw [e3, e2]
        · have e3 : L - p + p - 1 = p - 1 := by omega
          have e4 : (p - 1) / p = 0 := Nat.div_eq_of_lt (by omega)
          have e5 : (L - 1) / p = 0 := Nat.div_eq_of_lt (by omega)
          rw [e3, e4, e2, e5]
      refine Prod.ext ?_ (Prod.ext ?_ ?_)
      · show skip :: (List.range ((L - p + p - 1) / p + 1)).map (fun i => skip + p + i * p)
            = (List.range ((L + p - 1) / p + 1)).map (fun i => skip + i * p)
        rw [← hpages]
        exact range_offsets skip p ((L - p + p - 1) / p)
      · show (L - p + p - 1) / p + 1 = (L + p - 1) / p
        exact hpages
      · show L - p + min p L = L
        omega

lemma length_flatten_of_full (ls : List (List α)) (p : Nat)
    (hfull : ∀ pg ∈ ls, pg.length = p) : ls.flatten.length = p * ls.length := by
  induction ls with
  | nil => simp
  | cons a rest ih =>
    simp only [List.flatten_cons, List.length_append, List.length_cons]
    rw [hfull a (List.mem_cons_self _ _), ih (fun x hx => hfull x (List.mem_cons_of_mem _ hx))]
    ring

/-- C4 counterexample: the extraction loop does issue a request beyond the
first short page.  For page size 2 and the single-page sequence `[[7]]`
(whose final page is short), the loop issues 2 requests — one more than the
page sequence it was allowed to stop on. -/
theorem extractor_requests_beyond_short_page :
    ([[7]] : List (List Nat)).length = 1
    ∧ (extractLoop 2 ([[7]] : List (List Nat)).flatten).1.length = 2
    ∧ ¬ ((extractLoop 2 ([[7]] : List (List Nat)).flatten).1.length
          ≤ ([[7]] : List (List Nat)).length) := by
  decide

/-- C4 (amended): over a source whose page sequence ends in a page with
fewer than `page_size` rows (possibly empty), the extraction loop terminates
and consumes exactly the rows of that sequence, requesting offsets
`0, page_size, 2*page_size, ...` — the offset advances by exactly
`page_size` after each non-empty page.  It stops on the first *empty* page:
when the final page is empty it issues exactly one request per page of the
sequence; when the final page is short but non-empty it issues exactly one
extra request (which returns the empty page) beyond the sequence. -/
theorem extractor_termination_profile (p : Nat) (ls : List (List α))
    (hp : 0 < p) (hne : ls ≠ [])
    (hfull : ∀ pg ∈ ls.dropLast, pg.length = p)
    (hshort : (ls.getLast hne).length < p) :
    (extractLoop p ls.flatten).2.2 = ls.flatten.length
    ∧ (extractLoop p ls.flatten).1 =
        (List.range ((extractLoop p ls.flatten).2.1 + 1)).map (fun i => i * p)
    ∧ ((ls.getLast hne).length = 0 →
        (extractLoop p ls.flatten).2.1 = ls.length - 1
          ∧ (extractLoop p ls.flatten).1.length = ls.length)
    ∧ ((ls.getLast hne).length ≠ 0 →
        (extractLoop p ls.flatten).2.1 = ls.length
          ∧ (extractLoop p ls.flatten).1.length = ls.length + 1) := by
  have hjoin : ls.flatten.length = p * (ls.length - 1) + (ls.getLast hne).length := by
    conv_lhs => rw [← List.dropLast_append_getLast hne]
    rw [List.flatten_append, List.length_append,
      length_flatten_of_full ls.dropLast p hfull, List.length_dropLast]
    simp
  have hspec := extractGo_spec (ls.flatten.length + 1) p 0 ls.flatten hp (by omega)
  have hn : 1 ≤ ls.length := by
    cases ls with
    | nil => exact absurd rfl hne
    | cons a rest => simp
  rw [extractLoop, hspec]
  refine ⟨rfl, by simp, ?_, ?_⟩
  · intro hr0
    rw [hr0] at hjoin
    have hpages : (ls.flatten.length + p - 1) / p = ls.length - 1 := by
      have e1 : ls.flatten.length + p - 1 = p * (ls.length - 1) + (p - 1) := by
        generalize p * (ls.length - 1) = q at hjoin ⊢
        omega
      rw [e1, Nat.mul_add_div hp, Nat.div_eq_of_lt (by omega)]
      omega
    rw [hpages]
    refine ⟨rfl, ?_⟩
    simp
    omega
  · intro hr1
    have hpages : (ls.flatten.length + p - 1) / p = ls.length := by
      have e1 : ls.flatten.length + p - 1 = p * ls.length + ((ls.getLast hne).length - 1) := by
        obtain ⟨m, hm⟩ : ∃ m, ls.length = m + 1 := ⟨ls.length - 1, by omega⟩
        rw [hm] at hjoin ⊢
        rw [Nat.mul_succ]
        have e2 : m + 1 - 1 = m := by omega
        rw [e2] at hjoin
        generalize p * m = q at hjoin ⊢
        omega
      rw [e1, Nat.mul_add_div hp, Nat.div_eq_of_lt (by omega)]
      omega
    rw [hpages]
    simp

/-- Witness for the extraction profile: pages `[[1,2],[3]]` with page size 2
(final page short): 3 rows consumed, 3 requests issued — one beyond the
two-page sequence. -/
theorem extractor_termination_profile_witness :
    (extractLoop 2 ([[1, 2], [3]] : List (List Nat)).flatten).2.2
        = ([[1, 2], [3]] : List (List Nat)).flatten.length
    ∧ (extractLoop 2 ([[1, 2], [3]] : List (List Nat)).flatten).2.1
        = ([[1, 2], [3]] : List (List Nat)).length
    ∧ (extractLoop 2 ([[1, 2], [3]] : List (List Nat)).flatten).1.length
        = ([[1, 2], [3]] : List (List Nat)).length + 1 := by
  have h := extractor_termination_profile 2 [[1, 2], [3]] (by decide) (by decide)
    (by decide) (by decide)
  exact ⟨h.1, (h.2.2.2 (by decide)).1, (h.2.2.2 (by decide)).2⟩

/-- C5 counterexample: the retried class is not the whole 5xx server-error
class, and no retry happens for statuses outside the forcelist.  HTTP 501 is
a server error (5xx) but is not in `status_forcelist=(429, 500, 502, 503,
504)`, so a request that keeps answering 501 fails immediately after a
single attempt with the HTTP error (no retry, no backoff, no
retry-exhausted error). -/
theorem status_501_not_retried :
    (500 ≤ 501 ∧ 501 < 600)
    ∧ isRetryableStatus 501 = false
    ∧ sessionFetch (fun _ => 501) = (.fatalError 501, 1, []) := by
  decide

/-- C5 (amended): the session retries exactly the statuses of the configured
forcelist 429, 500, 502, 503, 504 (doubly exponential-backoff delays, ceiling
`total=5`), then surfaces the retry-exhausted error after 6 attempts; any
other error status — including auth (401) and malformed-request (400) — is
surfaced immediately by `raise_for_status` after a single attempt.  The
exceptions are the HTTP library's (`RetryError` / `HTTPError`); no
`TransientExtractionError` or `FatalExtractionError` classes exist in the
code. -/
theorem retry_policy_profile (responses : Nat → Nat) :
    ((∀ i, isRetryableStatus (responses i) = true) →
      sessionFetch responses =
        (.retriesExhausted, retryTotal + 1, [600, 1200, 2400, 4800, 9600]))
    ∧ (∀ s, responses 0 = s → isRetryableStatus s = false → 400 ≤ s →
        sessionFetch responses = (.fatalError s, 1, []))
    ∧ (∀ s, isRetryableStatus s = true ↔
        (s = 429 ∨ s = 500 ∨ s = 502 ∨ s = 503 ∨ s = 504))
    ∧ (isRetryableStatus 429 = true ∧ isRetryableStatus 401 = false
        ∧ isRetryableStatus 400 = false)
    ∧ (∀ k, backoffDelayMs (k + 1) = 2 * backoffDelayMs k) := by
  refine ⟨?_, ?_, ?_, by decide, ?_⟩
  · intro h
    simp [sessionFetch, retryTotal, sessionGo, h 0, h 1, h 2, h 3, h 4, h 5,
      backoffDelayMs, backoffFactorMs]
  · intro s h0 hret hge
    simp [sessionFetch, retryTotal, sessionGo, h0, hret, hge]
  · intro s
    simp [isRetryableStatus, statusForcelist]
  · intro k
    simp [backoffDelayMs, pow_succ]
    ring

/-- Witness for the retry profile: a source that always answers 503 is
retried five times with doubling delays and then fails with the
retry-exhausted error on the sixth attempt. -/
theorem retry_policy_profile_witness :
    sessionFetch (fun _ => 503) =
      (.retriesExhausted, retryTotal + 1, [600, 1200, 2400, 4800, 9600]) :=
  (retry_policy_profile (fun _ => 503)).1 (fun _ => by decide)

/-! ### Object-name round-trip analysis -/

lemma digitChar_not_special (n : Nat) :
    digitChar n ≠ '/' ∧ digitChar n ≠ 'T' ∧ digitChar n ≠ 'Z' ∧ digitChar n ≠ '_' := by
  match n with
  | 0 => decide
  | 1 => decide
  | 2 => decide
  | 3 => decide
  | 4 => decide
  | 5 => decide
  | 6 => decide
  | 7 => decide
  | 8 => decide
  | 9 => decide
  | m + 10 => exact (by decide :
      ('*' : Char) ≠ '/' ∧ ('*' : Char) ≠ 'T' ∧ ('*' : Char) ≠ 'Z' ∧ ('*' : Char) ≠ '_')

lemma digitVal?_digitChar (n : Nat) (h : n ≤ 9) : digitVal? (digitChar n) = some n := by
  interval_cases n <;> decide

lemma read2_pad2 (n : Nat) (h : n ≤ 99) :
    read2 (digitChar (n / 10)) (digitChar (n % 10)) = some n := by
  unfold read2
  rw [digitVal?_digitChar _ (by omega), digitVal?_digitChar _ (by omega)]
  exact congrArg some (by omega)

lemma read4_pad4 (n : Nat) (h : n ≤ 9999) :
    read4 (digitChar (n / 1000)) (digitChar (n / 100 % 10)) (digitChar (n / 10 % 10))
      (digitChar (n % 10)) = some n := by
  unfold read4
  rw [digitVal?_digitChar _ (by omega), digitVal?_digitChar _ (by omega),
    digitVal?_digitChar _ (by omega), digitVal?_digitChar _ (by omega)]
  exact congrArg some (by omega)

lemma matchStamp_stamp (t : DateTime) (h : validDT t) (tail : List Char) :
    matchStamp (stampChars t ++ tail) =
      some (t.year, t.month, t.day, t.hour, t.minute, t.second) := by
  obtain ⟨h1, h2, h3, h4, h5, h6, h7, h8, h9, h10⟩ := h
  simp only [stampChars, pad4, pad2, List.cons_append, List.nil_append]
  simp only [matchStamp]
  rw [if_pos (by simp)]
  rw [read4_pad4 t.year (by omega), read2_pad2 t.month (by omega),
    read2_pad2 t.day (by omega), read2_pad2 t.hour (by omega),
    read2_pad2 t.minute (by omega), read2_pad2 t.second (by omega)]

lemma foldl_no_slash (l : List Char) (acc : List Char) (h : ∀ c ∈ l, c ≠ '/') :
    l.foldl (fun acc c => if c = '/' then [] else acc ++ [c]) acc = acc ++ l := by
  induction l generalizing acc with
  | nil => simp
  | cons c rest ih =>
    rw [List.foldl_cons, if_neg (h c (List.mem_cons_self _ _)),
      ih (acc ++ [c]) (fun x hx => h x (List.mem_cons_of_mem _ hx))]
    simp

lemma stampChars_no_slash (t : DateTime) : ∀ c ∈ stampChars t, c ≠ '/' := by
  intro c hc
  simp only [stampChars, pad4, pad2, List.cons_append, List.nil_append,
    List.mem_cons, List.not_mem_nil, or_false] at hc
  rcases hc with rfl | rfl | rfl | rfl | rfl | rfl | rfl | rfl | rfl | rfl | rfl | rfl |
    rfl | rfl | rfl | rfl
  all_goals first
    | exact (digitChar_not_special _).1
    | decide

lemma afterLastSlash_name (t : DateTime) :
    afterLastSlash (new_object_name t) =
      ("qb_records_").data ++ stampChars t ++ (".jsonl.gz").data := by
  unfold afterLastSlash new_object_name
  rw [List.foldl_append, List.foldl_append]
  have hpre : ("quickbase_exports/qb_records_").data.foldl
      (fun acc c => if c = '/' then [] else acc ++ [c]) [] = ("qb_records_").data := by
    decide
  rw [hpre, foldl_no_slash _ _ (stampChars_no_slash t), foldl_no_slash _ _ (by decide),
    List.append_assoc]

lemma findStamp_cons_ne (c : Char) (rest : List Char) (h : c ≠ '_') :
    findStamp (c :: rest) = findStamp rest := by
  conv_lhs => unfold findStamp
  rw [if_neg h]

lemma findStamp_cons_us_none (rest : List Char) (h : matchStamp rest = none) :
    findStamp ('_' :: rest) = findStamp rest := by
  conv_lhs => unfold findStamp
  rw [if_pos rfl, h]

lemma findStamp_cons_us_some (rest : List Char) (v : Nat × Nat × Nat × Nat × Nat × Nat)
    (h : matchStamp rest = some v) : findStamp ('_' :: rest) = some v := by
  conv_lhs => unfold findStamp
  rw [if_pos rfl, h]

lemma matchStamp_records_tail (t : DateTime) :
    matchStamp ('r' :: 'e' :: 'c' :: 'o' :: 'r' :: 'd' :: 's' :: '_' ::
      (stampChars t ++ (".jsonl.gz").data)) = none := by
  simp only [stampChars, pad4, pad2, List.cons_append, List.nil_append]
  simp only [matchStamp]
  rw [if_neg]
  intro hcon
  exact (digitChar_not_special (t.year / 1000)).2.1 hcon.1

lemma findStamp_qbchars (t : DateTime) (h : validDT t) :
    findStamp (("qb_records_").data ++ stampChars t ++ (".jsonl.gz").data) =
      some (t.year, t.month, t.day, t.hour, t.minute, t.second) := by
  have hqb : ("qb_records_").data = ['q', 'b', '_', 'r', 'e', 'c', 'o', 'r', 'd', 's', '_'] := rfl
  rw [hqb]
  simp only [List.cons_append, List.nil_append]
  rw [findStamp_cons_ne _ _ (by decide), findStamp_cons_ne _ _ (by decide),
    findStamp_cons_us_none _ (matchStamp_records_tail t),
    findStamp_cons_ne _ _ (by decide), findStamp_cons_ne _ _ (by decide),
    findStamp_cons_ne _ _ (by decide), findStamp_cons_ne _ _ (by decide),
    findStamp_cons_ne _ _ (by decide), findStamp_cons_ne _ _ (by decide),
    findStamp_cons_ne _ _ (by decide),
    findStamp_cons_us_some _ _ (matchStamp_stamp t h (".jsonl.gz").data)]

/-- C7 counterexample: the round trip is exact only to whole seconds, and two
runs started within the same second get the *same* object name.  Start times
2025-09-20T14:50:59.000Z and 2025-09-20T14:50:59.500Z differ (by 500 epoch
milliseconds) yet produce identical object names, so a retried or concurrent
run in the same second silently overwrites the other's staging object; and
the timestamp recovered from the second name is not that run's start time in
epoch milliseconds. -/
theorem object_name_second_collision :
    (validDT ⟨2025, 9, 20, 14, 50, 59, 0⟩ ∧ validDT ⟨2025, 9, 20, 14, 50, 59, 500⟩)
    ∧ (⟨2025, 9, 20, 14, 50, 59, 0⟩ : DateTime) ≠ ⟨2025, 9, 20, 14, 50, 59, 500⟩
    ∧ toEpochMs ⟨2025, 9, 20, 14, 50, 59, 0⟩ ≠ toEpochMs ⟨2025, 9, 20, 14, 50, 59, 500⟩
    ∧ new_object_name ⟨2025, 9, 20, 14, 50, 59, 0⟩
        = new_object_name ⟨2025, 9, 20, 14, 50, 59, 500⟩
    ∧ gcs_object_epoch_ms (new_object_name ⟨2025, 9, 20, 14, 50, 59, 500⟩)
        ≠ some (toEpochMs ⟨2025, 9, 20, 14, 50, 59, 500⟩) := by
  decide

/-- C7 (amended): the staging object's name is a deterministic function of
the run's start time truncated to whole seconds.  Parsing the generated name
with `gcs_object_epoch_ms` recovers exactly the start time minus its
sub-second part (so the checkpoint candidate `current_ms` is the start time
rounded down to the second, and the round trip is exact precisely for
whole-second start times); and two runs obtain distinct object names if and
only if their start times differ after truncation to seconds — runs started
within the same second collide. -/
theorem object_name_roundtrip_seconds (t : DateTime) (h : validDT t) :
    gcs_object_epoch_ms (new_object_name t) = some (toEpochMs t - t.millis)
    ∧ (∀ t2, validDT t2 →
        (new_object_name t = new_object_name t2 ↔ truncToSecond t = truncToSecond t2)) := by
  constructor
  · unfold gcs_object_epoch_ms
    rw [afterLastSlash_name, findStamp_qbchars t h]
    unfold toEpochMs
    rw [Int.add_sub_cancel]
  · intro t2 h2
    constructor
    · intro heq
      have e1 := findStamp_qbchars t h
      have e2 := findStamp_qbchars t2 h2
      have e3 : (("qb_records_").data ++ stampChars t ++ (".jsonl.gz").data)
          = (("qb_records_").data ++ stampChars t2 ++ (".jsonl.gz").data) := by
        rw [← afterLastSlash_name, ← afterLastSlash_name, heq]
      rw [e3, e2] at e1
      injection e1 with e1
      obtain ⟨y1, mo1, d1, hh1, mi1, s1, ms1⟩ := t
      obtain ⟨y2, mo2, d2, hh2, mi2, s2, ms2⟩ := t2
      simp only [Prod.mk.injEq] at e1
      obtain ⟨ey, emo, ed, ehh, emi, es⟩ := e1
      simp [truncToSecond, ey, emo, ed, ehh, emi, es]
    · intro heq
      obtain ⟨y1, mo1, d1, hh1, mi1, s1, ms1⟩ := t
      obtain ⟨y2, mo2, d2, hh2, mi2, s2, ms2⟩ := t2
      simp only [truncToSecond, DateTime.mk.injEq, and_true] at heq
      obtain ⟨ey, emo, ed, ehh, emi, es⟩ := heq
      simp [new_object_name, stampChars, pad4, pad2, ey, emo, ed, ehh, emi, es]

/-- Witness for the round-trip theorem: a start time with a 250 ms
sub-second part round-trips to itself minus those 250 ms. -/
theorem object_name_roundtrip_seconds_witness :
    validDT ⟨2025, 9, 20, 14, 50, 59, 250⟩
    ∧ gcs_object_epoch_ms (new_object_name ⟨2025, 9, 20, 14, 50, 59, 250⟩)
      = some (toEpochMs ⟨2025, 9, 20, 14, 50, 59, 250⟩ - (250 : Nat)) :=
  ⟨by decide, (object_name_roundtrip_seconds ⟨2025, 9, 20, 14, 50, 59, 250⟩ (by decide)).1⟩
